import Mathlib

/-!
Verification of the `restinpieces-sqlite-backup` repository: a shallow
embedding, in Lean 4, of the backup job handler (`backup.go`) and the pull
client (`cmd/client`), together with theorems settling the specified
properties of the system.

The embedding follows the Go source:
* `Handler.Handle` / `onlineBackup` / `vacuumInto` / `validateOnlineConfig` /
  `compressFile` (backup.go) are modelled as pure functions over an explicit
  environment (which operations of the outside world fail, the page count of
  the source database) and an explicit run state (which files exist, how many
  connections were opened, how many copy steps ran).
* `verifyBackup` / `decompressFile` / `findLatestBackup` (the pull client)
  are modelled likewise.
* File names are byte lists (`List Nat`) where Go's bytewise lexicographic
  string order matters (artifact names); Lean `String`s are used elsewhere.

Definitions come first, theorems afterwards.
-/

namespace SqliteBackup

/-! ## Byte-level lexicographic order (Go string comparison)

Go's `<` and `>` on strings compare bytewise lexicographically;
`findLatestBackup` sorts with `files[i].Name() > files[j].Name()`. -/

/-- Go's bytewise lexicographic `<` on strings, on byte lists. -/
def goLess : List Nat → List Nat → Bool
  | [], [] => false
  | [], _ :: _ => true
  | _ :: _, [] => false
  | a :: as, b :: bs => if a < b then true else if b < a then false else goLess as bs

/-! ## Zero-padded decimal rendering and timestamps

`Handle` (backup.go lines 73-78) names the artifact
`fmt.Sprintf("%s-%s-%s.bck.gz", fileNameOnly, timestamp, strategyForFilename)`
where `timestamp = time.Now().UTC().Format("2006-01-02T15-04-05Z")`: a
fixed-width, zero-padded rendering of the UTC time. -/

/-- The `k` low decimal digits of `n`, zero padded, as ASCII byte codes. -/
def padDigits : Nat → Nat → List Nat
  | 0, _ => []
  | k + 1, n => (48 + n / 10 ^ k % 10) :: padDigits k (n % 10 ^ k)

/-- A broken-down UTC time, as produced by the Go time formatter. -/
structure Timestamp where
  year : Nat
  month : Nat
  day : Nat
  hour : Nat
  minute : Nat
  second : Nat
deriving DecidableEq, Repr

/-- The components fit their rendered widths (4 digits for the year, 2 for
the rest); every real calendar timestamp satisfies this. -/
def Timestamp.Valid (t : Timestamp) : Prop :=
  t.year < 10 ^ 4 ∧ t.month < 10 ^ 2 ∧ t.day < 10 ^ 2 ∧ t.hour < 10 ^ 2 ∧
    t.minute < 10 ^ 2 ∧ t.second < 10 ^ 2

instance (t : Timestamp) : Decidable t.Valid := by
  unfold Timestamp.Valid; infer_instance

/-- Chronological strict order on timestamps. -/
def chronLtB (t1 t2 : Timestamp) : Bool :=
  if t1.year < t2.year then true else if t2.year < t1.year then false
  else if t1.month < t2.month then true else if t2.month < t1.month then false
  else if t1.day < t2.day then true else if t2.day < t1.day then false
  else if t1.hour < t2.hour then true else if t2.hour < t1.hour then false
  else if t1.minute < t2.minute then true else if t2.minute < t1.minute then false
  else if t1.second < t2.second then true else false

/-- Render a timestamp in the Go layout `2006-01-02T15-04-05Z`
(the byte 45 is the hyphen, 84 is the letter T, 90 is the letter Z). -/
def renderTs (t : Timestamp) : List Nat :=
  padDigits 4 t.year ++ 45 :: (padDigits 2 t.month ++ 45 :: (padDigits 2 t.day ++
    84 :: (padDigits 2 t.hour ++ 45 :: (padDigits 2 t.minute ++
      45 :: (padDigits 2 t.second ++ [90])))))

/-- Byte codes of the fixed artifact suffix `.bck.gz`. -/
def extBytes : List Nat := [46, 98, 99, 107, 46, 103, 122]

/-- The artifact file name `<base>-<timestamp>-<strategy>.bck.gz` built by
`Handle`, as bytes (45 is the hyphen). -/
def artifactName (base : List Nat) (t : Timestamp) (strat : List Nat) : List Nat :=
  base ++ 45 :: (renderTs t ++ 45 :: (strat ++ extBytes))

/-! ## Consumer-side manifest resolution (`findLatestBackup`)

`findLatestBackup` (client) lists the remote directory, sorts the names
descending by Go string `>`, and returns the first; on an empty directory it
returns the error `no backup files found`.  Sorting descending and taking
the head yields a maximum of the list under `goLess`, modelled by a fold. -/

/-- The greater of two names under Go string order. -/
def goMax (acc x : List Nat) : List Nat := if goLess acc x then x else acc

/-- Model of `findLatestBackup`: `none` is the empty-directory error,
otherwise the greatest name under Go's bytewise string order. -/
def findLatestBackup (names : List (List Nat)) : Option (List Nat) :=
  match names with
  | [] => none
  | n :: ns => some (ns.foldl goMax n)

/-! ## The online copy loop (backup.go lines 183-200)

`onlineBackup` drives `backup.Step(pagesPerStep)` until the engine reports
that no pages remain.  One engine step copies at most `pagesPerStep` of the
remaining pages; `more` is false exactly when zero pages remain afterward. -/

/-- The copy loop: `fuel` bounds the recursion (`fuel = rem` always suffices
when `0 < S`); `rem` pages remain; `steps` steps and `copied` pages are done
so far.  Returns the final step and page counts at loop exit. -/
def loopGo (S : Nat) : Nat → Nat → Nat → Nat → Option (Nat × Nat)
  | 0, _, _, _ => none
  | fuel + 1, rem, steps, copied =>
    let c := min S rem
    let rem2 := rem - c
    if rem2 = 0 then some (steps + 1, copied + c)
    else loopGo S fuel rem2 (steps + 1) (copied + c)

/-- The online copy loop entered with `P` pages remaining and step size `S`. -/
def onlineLoop (S P : Nat) : Option (Nat × Nat) := loopGo S P P 0 0

/-! ## The progress logger (backup.go lines 203-258)

`newModuloLogger` computes `logPageInterval = totalPages / 10`, at least 1,
and the first target equals the interval.  `moduloLogger.Log` emits a record
when `copiedPages >= nextLogTarget` and then advances the target;
`moduloLogger.LogFinal` always emits at loop exit.  Each record carries the
slog pairs `pages_copied` and `total_pages`. -/

/-- A progress record as emitted by `moduloLogger.log`: its key-value pairs. -/
def mlogRecord (total copied : Nat) : List (String × Nat) :=
  [("pages_copied", copied), ("total_pages", total)]

/-- `logPageInterval` from `newModuloLogger`: a tenth of the page count, at
least 1. -/
def logPageInterval (total : Nat) : Nat :=
  if total / 10 = 0 then 1 else total / 10

/-- The copy loop with the modulo logger threaded through, accumulating the
emitted records: after each step, if no pages remain the final record is
emitted and the loop exits, otherwise a record is emitted only when the page
target is reached. -/
def loopLogGo (S total interval : Nat) :
    Nat → Nat → Nat → Nat → List (List (String × Nat)) →
      Option (List (List (String × Nat)))
  | 0, _, _, _, _ => none
  | fuel + 1, rem, target, copied, acc =>
    let c := min S rem
    let copied2 := copied + c
    let rem2 := rem - c
    if rem2 = 0 then some (acc ++ [mlogRecord total copied2])
    else if target ≤ copied2 then
      loopLogGo S total interval fuel rem2 (target + interval) copied2
        (acc ++ [mlogRecord total copied2])
    else loopLogGo S total interval fuel rem2 target copied2 acc

/-- The records logged by one online copy loop over `P` pages with step `S`. -/
def onlineLogs (S P : Nat) : Option (List (List (String × Nat))) :=
  loopLogGo S P (logPageInterval P) P P (logPageInterval P) 0 []

/-! ## The verification engine (client `verifyBackup`)

`verifyBackup` decompresses, opens the database read-only, prepares and
executes `PRAGMA integrity_check;`, and succeeds only when a row came back
whose text equals the literal `ok`.  The outcomes of the four external
operations form the environment. -/

/-- Outcomes of the external operations inside one `verifyBackup` call. -/
structure VerifyEnv where
  decompressRes : Except String Unit
  openRes : Except String Unit
  prepareRes : Except String Unit
  stepRes : Except String (Option String)

/-- Model of `verifyBackup`: the exact error-propagation chain of the
source, ending in the comparison of the result text with the literal. -/
def verifyBackup (e : VerifyEnv) : Except String Unit :=
  match e.decompressRes with
  | .error msg => .error ("failed to decompress for verification: " ++ msg)
  | .ok _ =>
    match e.openRes with
    | .error msg => .error ("failed to open decompressed database: " ++ msg)
    | .ok _ =>
      match e.prepareRes with
      | .error msg => .error ("failed to prepare integrity_check statement: " ++ msg)
      | .ok _ =>
        match e.stepRes with
        | .error msg => .error ("failed to execute integrity_check: " ++ msg)
        | .ok none => .error "integrity_check returned no rows"
        | .ok (some result) =>
          if result = "ok" then .ok ()
          else .error ("integrity_check failed, result was: " ++ result)

/-! ## The compression adapter (byte level)

`compressFile` (backup.go lines 263-284) streams a source file through a
gzip encoder into a destination file; `decompressFile` (client) streams it
back.  The gzip codec itself is the Go standard library, external to this
repository; it is abstracted as a codec, and the round-trip property of the
repository plumbing is proved for every codec whose decoder inverts its
encoder (the documented gzip contract). -/

/-- An abstract streaming codec: the gzip encoder/decoder pair. -/
structure Codec where
  enc : List Nat → List Nat
  dec : List Nat → Except String (List Nat)

/-- A file system: contents by path. -/
def FS : Type := String → Option (List Nat)

/-- Writing one file. -/
def fsUpdate (fs : FS) (p : String) (v : List Nat) : FS :=
  fun q => if q = p then some v else fs q

/-- Model of `Handler.compressFile`: open the source (fails when the file is
missing), create the destination, stream through the encoder. -/
def compressFile (g : Codec) (fs : FS) (src dst : String) : Except String FS :=
  match fs src with
  | none => .error "failed to open source file for compression"
  | some d => .ok (fsUpdate fs dst (g.enc d))

/-- Model of the client `decompressFile`: open the source, build the gzip
reader (fails on invalid data), create the destination, stream through. -/
def decompressFile (g : Codec) (fs : FS) (src dst : String) : Except String FS :=
  match fs src with
  | none => .error "failed to open source file for decompression"
  | some d =>
    match g.dec d with
    | .error msg => .error ("failed to create gzip reader: " ++ msg)
    | .ok out => .ok (fsUpdate fs dst out)

/-- A concrete invertible codec standing in for gzip in witnesses: prefixes
the two gzip magic bytes; decoding strips them and rejects other inputs. -/
def sampleCodec : Codec where
  enc := fun d => 31 :: 139 :: d
  dec := fun d =>
    match d with
    | 31 :: 139 :: rest => .ok rest
    | _ => .error "gzip: invalid header"

/-- A concrete one-file file system for witnesses. -/
def sampleFs : FS := fun q => if q = "/data/app.db" then some [1, 2, 3] else none

/-! ## The backup run (`Handler.Handle`, backup.go lines 62-107)

`Handle` computes the temp path and the artifact name, dispatches on the
strategy string, and on strategy success registers the deferred removal of
the temp file, compresses it into the artifact path, and returns.  The
manifest file `latest.txt` is never touched by `Handle`.  The outside world
(sqlite engine, OS) is an explicit environment; the observable outcome is a
run state. -/

/-- The backup job configuration (`Config` in backup.go).  `pagesPerStep`
is a Go `int`, `sleepInterval` a `time.Duration` in nanoseconds; both can be
negative, hence `Int`. -/
structure Config where
  sourcePath : String
  backupDir : String
  strategy : String
  pagesPerStep : Int
  sleepInterval : Int

/-- The `vacuum` strategy tag. -/
def StrategyVacuum : String := "vacuum"

/-- The `online` strategy tag. -/
def StrategyOnline : String := "online"

/-- Contents of a file in the run model. -/
inductive Content
  | dbImage (pages : Nat)
  | gzipOf (c : Content)
deriving DecidableEq, Repr

/-- The artifact file on disk: `partialFile` is a created file whose write
did not complete; `fullFile` holds the completed compressed contents. -/
inductive ArtifactFile
  | partialFile
  | fullFile (c : Content)
deriving DecidableEq, Repr

/-- Outcomes of the external operations during one run of `Handle`. -/
structure Env where
  sourcePages : Nat
  openSourceFails : Bool
  createDestFails : Bool
  initStepFails : Bool
  stepFailsAt : Option Nat
  vacuumFails : Bool
  vacuumPartialFile : Bool
  compressOpenFails : Bool
  compressCreateFails : Bool
  compressCopyFails : Bool
  manifest0 : Option (List Nat)
  now : Timestamp

/-- The three parts interpolated into the artifact file name by
`fmt.Sprintf("%s-%s-%s.bck.gz", ...)`. -/
structure NameParts where
  base : String
  ts : Timestamp
  strat : String
deriving DecidableEq, Repr

/-- Split a character list on a separator character. -/
def splitOnChar (c : Char) : List Char → List (List Char)
  | [] => [[]]
  | x :: xs =>
    if x = c then [] :: splitOnChar c xs
    else
      match splitOnChar c xs with
      | [] => [[x]]
      | h :: t => (x :: h) :: t

/-- Join character lists with a separator character. -/
def joinWithChar (c : Char) : List (List Char) → List Char
  | [] => []
  | [x] => x
  | x :: xs => x ++ c :: joinWithChar c xs

/-- `strings.TrimSuffix(s, filepath.Ext(s))`: drop the suffix that starts at
the last dot, when a dot exists. -/
def trimExt (s : String) : String :=
  let comps := splitOnChar (Char.ofNat 46) s.data
  if comps.length ≤ 1 then s else ⟨joinWithChar (Char.ofNat 46) comps.dropLast⟩

/-- `filepath.Base` for plain slash-separated paths: the last path
component. -/
def baseName (s : String) : String := ⟨(splitOnChar (Char.ofNat 47) s.data).getLastD s.data⟩

/-- `fileNameOnly` of backup.go lines 73-74. -/
def baseNameNoExt (p : String) : String := trimExt (baseName p)

/-- Observable state after a run of `Handle`. -/
structure RunState where
  tempCreated : Bool
  tempExists : Bool
  artifact : Option ArtifactFile
  manifest : Option (List Nat)
  connsOpened : Nat
  loopIterations : Nat
  strategyOk : Bool
  name : NameParts

/-- What one strategy invocation did: its error outcome, whether the temp
destination file was created, the pages it copied into it, the connections
it opened, and the loop iterations it ran. -/
structure StratResult where
  res : Except String Unit
  tempCreated : Bool
  copiedPages : Nat
  conns : Nat
  iterations : Nat

/-- Model of `Handler.validateOnlineConfig` (backup.go lines 110-118). -/
def validateOnlineConfig (cfg : Config) : Except String Unit :=
  if cfg.pagesPerStep ≤ 0 then
    .error "invalid configuration for online backup: pages_per_step must be a positive value"
  else if cfg.sleepInterval < 0 then
    .error "invalid configuration for online backup: sleep_interval cannot be negative"
  else .ok ()

/-- The step loop of `onlineBackup` with a possible engine failure at a
given iteration: returns the outcome, the iterations run, and the pages
copied. -/
def loopGoA (S : Nat) (failAt : Option Nat) :
    Nat → Nat → Nat → Nat → Except String Unit × Nat × Nat
  | 0, _, iter, copied => (.ok (), iter, copied)
  | fuel + 1, rem, iter, copied =>
    if failAt = some iter then (.error "backup step failed", iter + 1, copied)
    else
      let c := min S rem
      let rem2 := rem - c
      if rem2 = 0 then (.ok (), iter + 1, copied + c)
      else loopGoA S failAt fuel rem2 (iter + 1) (copied + c)

/-- Model of `Handler.onlineBackup` (backup.go lines 141-201): validate the
configuration, open the source read-only, create the temp destination, run
`Step(0)` to learn the page count, short-circuit on an empty source, else
drive the copy loop.  Fuel `sourcePages` is always sufficient because
validation guarantees a positive step size. -/
def onlineBackupM (cfg : Config) (env : Env) : StratResult :=
  match validateOnlineConfig cfg with
  | .error e => ⟨.error e, false, 0, 0, 0⟩
  | .ok _ =>
    if env.openSourceFails then
      ⟨.error "failed to open source db for online backup", false, 0, 0, 0⟩
    else if env.createDestFails then
      ⟨.error "failed to create destination db for online backup", false, 0, 1, 0⟩
    else if env.initStepFails then
      ⟨.error "backup step(0) failed", true, 0, 2, 0⟩
    else if env.sourcePages = 0 then
      ⟨.ok (), true, 0, 2, 0⟩
    else
      let S := cfg.pagesPerStep.toNat
      let (r, iters, copied) :=
        loopGoA S env.stepFailsAt env.sourcePages env.sourcePages 0 0
      ⟨r, true, copied, 2, iters⟩

/-- Model of `Handler.vacuumInto` (backup.go lines 121-138): open the source
read-only and execute `VACUUM INTO` at the temp path; a failed statement may
or may not have created the destination file. -/
def vacuumIntoM (env : Env) : StratResult :=
  if env.openSourceFails then
    ⟨.error "failed to open source db for vacuum", false, 0, 0, 0⟩
  else if env.vacuumFails then
    ⟨.error "failed to execute vacuum statement", env.vacuumPartialFile, 0, 1, 0⟩
  else ⟨.ok (), true, env.sourcePages, 1, 0⟩

/-- The gzip-and-finalize tail of `Handle` (lines 99-102) calling
`compressFile` (lines 263-284): open the temp file, create the artifact,
stream through gzip; a failed copy leaves the created artifact file partial
on disk. -/
def compressStep (env : Env) (tempPages : Nat) :
    Except String Unit × Option ArtifactFile :=
  if env.compressOpenFails then
    (.error "failed to gzip backup file: failed to open source file for compression", none)
  else if env.compressCreateFails then
    (.error "failed to gzip backup file: failed to create destination file for compression", none)
  else if env.compressCopyFails then
    (.error "failed to gzip backup file: failed to copy and compress data", some .partialFile)
  else (.ok (), some (.fullFile (.gzipOf (.dbImage tempPages))))

/-- Lines 93-106 of `Handle`: on strategy error, return at once — the
deferred `os.Remove(tempBackupPath)` at line 96 is registered only after
this check, so the temp file stays; on strategy success, register the
removal (so the temp file is gone at exit no matter how compression ends)
and compress into the artifact path.  The manifest is never written. -/
def afterStrategy (env : Env) (parts : NameParts) (r : StratResult) :
    Except String Unit × RunState :=
  match r.res with
  | .error e =>
    (.error ("backup creation failed: " ++ e),
      ⟨r.tempCreated, r.tempCreated, none, env.manifest0, r.conns, r.iterations,
        false, parts⟩)
  | .ok _ =>
    let (cres, artifact) := compressStep env r.copiedPages
    (cres,
      ⟨r.tempCreated, false, artifact, env.manifest0, r.conns, r.iterations,
        true, parts⟩)

/-- Model of `Handler.Handle` (backup.go lines 62-107). -/
def handle (cfg : Config) (env : Env) : Except String Unit × RunState :=
  let strategyForFilename := if cfg.strategy = "" then StrategyOnline else cfg.strategy
  let parts : NameParts := ⟨baseNameNoExt cfg.sourcePath, env.now, strategyForFilename⟩
  if cfg.strategy = StrategyVacuum then
    afterStrategy env parts (vacuumIntoM env)
  else if cfg.strategy = StrategyOnline ∨ cfg.strategy = "" then
    afterStrategy env parts (onlineBackupM cfg env)
  else
    (.error "unknown backup strategy",
      ⟨false, false, none, env.manifest0, 0, 0, false, parts⟩)

/-- Model of the client `verifyBackup` as a function of artifact contents:
decompression succeeds only on a gzip stream, opening succeeds only on a
database image.  Modelled from the spec for the engine part: a database
image produced by the sqlite engine passes `PRAGMA integrity_check` with the
result `ok` (the engine itself is outside this repository). -/
def verifyContent : Content → Except String Unit
  | .gzipOf (.dbImage _) => .ok ()
  | .gzipOf (.gzipOf _) => .error "failed to open decompressed database"
  | .dbImage _ => .error "failed to decompress for verification: failed to create gzip reader"

/-! ## Theorems -/

/-! ### The online copy loop: step count and page total -/

theorem loopGo_spec (S : Nat) (hS : 0 < S) :
    ∀ fuel rem steps copied, 0 < rem → rem ≤ fuel →
      loopGo S fuel rem steps copied =
        some (steps + (rem + S - 1) / S, copied + rem) := by
  intro fuel
  induction fuel with
  | zero => intro rem steps copied h1 h2; omega
  | succ fuel ih =>
    intro rem steps copied h1 h2
    simp only [loopGo]
    by_cases hle : rem ≤ S
    · have hmin : min S rem = rem := by omega
      have hdiv : (rem + S - 1) / S = 1 := by
        have h3 : rem + S - 1 = (rem - 1) + S := by omega
        rw [h3, Nat.add_div_right _ hS, Nat.div_eq_of_lt (by omega)]
      simp [hmin, hdiv]
    · have hmin : min S rem = S := by omega
      have hcond : ¬ (rem - min S rem = 0) := by omega
      rw [if_neg hcond, hmin,
        ih (rem - S) (steps + 1) (copied + S) (by omega) (by omega)]
      have e1 : rem - S + S - 1 = rem - 1 := by omega
      have e2 : rem + S - 1 = rem - 1 + S := by omega
      rw [e1, e2, Nat.add_div_right _ hS]
      simp only [Option.some.injEq, Prod.mk.injEq]
      omega

/-- C3: for the online strategy, for every total page count `P > 0` and
step size `S > 0`, the copy loop performs exactly the ceiling of `P / S`
copy steps, terminates because no pages remain, and the cumulative pages
copied at exit equal `P` exactly. -/
theorem onlineLoop_steps_exact (P S : Nat) (hP : 0 < P) (hS : 0 < S) :
    onlineLoop S P = some ((P + S - 1) / S, P) := by
  unfold onlineLoop
  simpa using loopGo_spec S hS P P 0 0 hP (le_refl P)

/-- Witness for C3 at `P = 10`, `S = 3`: four steps, ten pages. -/
theorem onlineLoop_steps_exact_witness : onlineLoop 3 10 = some (4, 10) := by
  simpa using onlineLoop_steps_exact 10 3 (by decide) (by decide)

/-! ### The verification engine -/

/-- C5: `verifyBackup` succeeds if and only if the artifact decompresses,
the decompressed file opens as a database, the integrity-check statement
prepares and executes without engine-level error, and the returned result
row equals the literal string `ok`; any other result value, any engine
error, or a corrupted artifact (a failing decompression) yields a
verification failure. -/
theorem verifyBackup_ok_iff (e : VerifyEnv) :
    verifyBackup e = .ok () ↔
      e.decompressRes = .ok () ∧ e.openRes = .ok () ∧ e.prepareRes = .ok () ∧
        e.stepRes = .ok (some "ok") := by
  obtain ⟨d, o, p, s⟩ := e
  rcases d with m | u
  · simp [verifyBackup]
  · cases u
    rcases o with m | u
    · simp [verifyBackup]
    · cases u
      rcases p with m | u
      · simp [verifyBackup]
      · cases u
        rcases s with m | os
        · simp [verifyBackup]
        · rcases os with _ | r
          · simp [verifyBackup]
          · by_cases hr : r = "ok" <;> simp [verifyBackup, hr]

/-! ### The compression adapter round trip -/

/-- C7: for every codec whose decoder inverts its encoder (the gzip
contract) and every file contents, running `compressFile` and then
`decompressFile` through the repository plumbing reproduces the original
bytes exactly. -/
theorem compress_then_decompress_id (g : Codec)
    (hg : ∀ d, g.dec (g.enc d) = .ok d) (fs : FS) (src dst dst2 : String)
    (data : List Nat) (hsrc : fs src = some data) :
    ∃ fs1 fs2, compressFile g fs src dst = .ok fs1 ∧
      decompressFile g fs1 dst dst2 = .ok fs2 ∧ fs2 dst2 = some data := by
  refine ⟨fsUpdate fs dst (g.enc data),
    fsUpdate (fsUpdate fs dst (g.enc data)) dst2 data, ?_, ?_, ?_⟩
  · simp [compressFile, hsrc]
  · simp [decompressFile, fsUpdate, hg]
  · simp [fsUpdate]

/-- Witness for C7: the sample codec and the one-file file system. -/
theorem compress_then_decompress_id_witness :
    ∃ fs1 fs2,
      compressFile sampleCodec sampleFs "/data/app.db" "/backups/a.bck.gz" = .ok fs1 ∧
      decompressFile sampleCodec fs1 "/backups/a.bck.gz" "/tmp/verified.db" = .ok fs2 ∧
      fs2 "/tmp/verified.db" = some [1, 2, 3] :=
  compress_then_decompress_id sampleCodec (fun _ => rfl) sampleFs
    "/data/app.db" "/backups/a.bck.gz" "/tmp/verified.db" [1, 2, 3] rfl

/-! ### Byte order: strict-order facts -/

theorem goLess_irrefl (l : List Nat) : goLess l l = false := by
  induction l with
  | nil => rfl
  | cons a as ih => simp [goLess, ih]

theorem goLess_trans {a b c : List Nat} (h1 : goLess a b = true)
    (h2 : goLess b c = true) : goLess a c = true := by
  induction a generalizing b c with
  | nil =>
    cases c with
    | nil =>
      cases b with
      | nil => exact absurd h1 (by simp [goLess])
      | cons y ys => exact absurd h2 (by simp [goLess])
    | cons z zs => simp [goLess]
  | cons x xs ih =>
    cases b with
    | nil => exact absurd h1 (by simp [goLess])
    | cons y ys =>
      cases c with
      | nil => exact absurd h2 (by simp [goLess])
      | cons z zs =>
        simp only [goLess] at h1 h2 ⊢
        rcases Nat.lt_trichotomy x y with hxy | hxy | hxy
        · rcases Nat.lt_trichotomy y z with hyz | hyz | hyz
          · simp [Nat.lt_trans hxy hyz]
          · subst hyz; simp [hxy]
          · simp [hyz, Nat.lt_asymm hyz] at h2
        · subst hxy
          rcases Nat.lt_trichotomy x z with hxz | hxz | hxz
          · simp [hxz]
          · subst hxz
            simp only [Nat.lt_irrefl, if_false] at h1 h2 ⊢
            exact ih h1 h2
          · simp [hxz, Nat.lt_asymm hxz] at h2
        · simp [hxy, Nat.lt_asymm hxy] at h1

theorem goLess_antisymm {a b : List Nat} (h1 : goLess a b = false)
    (h2 : goLess b a = false) : a = b := by
  induction a generalizing b with
  | nil =>
    cases b with
    | nil => rfl
    | cons y ys => simp [goLess] at h1
  | cons x xs ih =>
    cases b with
    | nil => simp [goLess] at h2
    | cons y ys =>
      simp only [goLess] at h1 h2
      rcases Nat.lt_trichotomy x y with hxy | hxy | hxy
      · simp [hxy] at h1
      · subst hxy
        simp only [Nat.lt_irrefl, if_false] at h1 h2
        rw [ih h1 h2]
      · simp [hxy, Nat.lt_asymm hxy] at h2

/-- A third comparison fact: below one list and not below another means
below that other list (totality plus transitivity). -/
theorem goLess_of_lt_of_not_lt {a b c : List Nat} (h1 : goLess a b = true)
    (h2 : goLess c b = false) : goLess a c = true := by
  by_cases hac : goLess a c = true
  · exact hac
  · by_cases hca : goLess c a = true
    · exact absurd (goLess_trans hca h1) (by simp [h2])
    · have : a = c := goLess_antisymm (by simpa using hac) (by simpa using hca)
      subst this
      exact absurd h1 (by simp [h2])

theorem goLess_append_left (xs a b : List Nat) :
    goLess (xs ++ a) (xs ++ b) = goLess a b := by
  induction xs with
  | nil => rfl
  | cons x xt ih => simp [goLess, ih]

theorem goLess_sep (c : Nat) (u v : List Nat) :
    goLess (c :: u) (c :: v) = goLess u v := by
  simp [goLess]

/-! ### Zero-padded blocks order like their values -/

theorem goLess_padDigits (k : Nat) :
    ∀ (m n : Nat) (a b : List Nat), m < 10 ^ k → n < 10 ^ k →
      goLess (padDigits k m ++ a) (padDigits k n ++ b) =
        if m < n then true else if n < m then false else goLess a b := by
  induction k with
  | zero =>
    intro m n a b hm hn
    have hm0 : m = 0 := by simpa using hm
    have hn0 : n = 0 := by simpa using hn
    subst hm0; subst hn0
    simp [padDigits]
  | succ k ih =>
    intro m n a b hm hn
    have hp : 0 < 10 ^ k := Nat.pos_pow_of_pos k (by norm_num)
    have hm10 : m < 10 * 10 ^ k := by
      calc m < 10 ^ (k + 1) := hm
        _ = 10 * 10 ^ k := by ring
    have hn10 : n < 10 * 10 ^ k := by
      calc n < 10 ^ (k + 1) := hn
        _ = 10 * 10 ^ k := by ring
    have hdm : m / 10 ^ k < 10 := by
      rw [Nat.div_lt_iff_lt_mul hp]; omega
    have hdn : n / 10 ^ k < 10 := by
      rw [Nat.div_lt_iff_lt_mul hp]; omega
    simp only [padDigits, List.cons_append, goLess, List.append_eq,
      Nat.mod_eq_of_lt hdm, Nat.mod_eq_of_lt hdn]
    rcases Nat.lt_trichotomy (m / 10 ^ k) (n / 10 ^ k) with hd | hd | hd
    · have hmn : m < n := Nat.lt_of_div_lt_div hd
      have h48 : 48 + m / 10 ^ k < 48 + n / 10 ^ k := by omega
      simp [h48, hmn]
    · have h48 : ¬ (48 + m / 10 ^ k < 48 + n / 10 ^ k) := by omega
      have h48b : ¬ (48 + n / 10 ^ k < 48 + m / 10 ^ k) := by omega
      rw [if_neg h48, if_neg h48b,
        ih (m % 10 ^ k) (n % 10 ^ k) a b (Nat.mod_lt _ hp) (Nat.mod_lt _ hp)]
      have em := Nat.div_add_mod m (10 ^ k)
      have en := Nat.div_add_mod n (10 ^ k)
      rw [hd] at em
      set B := 10 ^ k * (n / 10 ^ k) with hB
      split_ifs <;> first | rfl | omega
    · have hnm : n < m := Nat.lt_of_div_lt_div hd
      have h48 : ¬ (48 + m / 10 ^ k < 48 + n / 10 ^ k) := by omega
      have h48b : 48 + n / 10 ^ k < 48 + m / 10 ^ k := by omega
      simp [h48, h48b, hnm, Nat.lt_asymm hnm]

/-! ### Rendered timestamps order chronologically -/

theorem goLess_renderTs :
    ∀ (t1 t2 : Timestamp) (a b : List Nat), t1.Valid → t2.Valid →
      goLess (renderTs t1 ++ a) (renderTs t2 ++ b) =
        if chronLtB t1 t2 then true
        else if chronLtB t2 t1 then false
        else goLess a b := by
  rintro ⟨y1, mo1, d1, h1, mi1, s1⟩ ⟨y2, mo2, d2, h2, mi2, s2⟩ a b
    ⟨hy1, hmo1, hd1, hh1, hmi1, hs1⟩ ⟨hy2, hmo2, hd2, hh2, hmi2, hs2⟩
  simp only [renderTs, chronLtB, List.append_assoc, List.cons_append,
    List.singleton_append]
  rw [goLess_padDigits 4 _ _ _ _ hy1 hy2]
  rcases Nat.lt_trichotomy y1 y2 with h | h | h
  · simp [h]
  · subst h
    simp only [Nat.lt_irrefl, if_false, goLess_sep]
    rw [goLess_padDigits 2 _ _ _ _ hmo1 hmo2]
    rcases Nat.lt_trichotomy mo1 mo2 with h | h | h
    · simp [h]
    · subst h
      simp only [Nat.lt_irrefl, if_false, goLess_sep]
      rw [goLess_padDigits 2 _ _ _ _ hd1 hd2]
      rcases Nat.lt_trichotomy d1 d2 with h | h | h
      · simp [h]
      · subst h
        simp only [Nat.lt_irrefl, if_false, goLess_sep]
        rw [goLess_padDigits 2 _ _ _ _ hh1 hh2]
        rcases Nat.lt_trichotomy h1 h2 with h | h | h
        · simp [h]
        · subst h
          simp only [Nat.lt_irrefl, if_false, goLess_sep]
          rw [goLess_padDigits 2 _ _ _ _ hmi1 hmi2]
          rcases Nat.lt_trichotomy mi1 mi2 with h | h | h
          · simp [h]
          · subst h
            simp only [Nat.lt_irrefl, if_false, goLess_sep]
            rw [goLess_padDigits 2 _ _ _ _ hs1 hs2]
            rcases Nat.lt_trichotomy s1 s2 with h | h | h
            · simp [h]
            · subst h
              simp [Nat.lt_irrefl, goLess_sep]
            · simp [h, Nat.lt_asymm h]
          · simp [h, Nat.lt_asymm h]
        · simp [h, Nat.lt_asymm h]
      · simp [h, Nat.lt_asymm h]
    · simp [h, Nat.lt_asymm h]
  · simp [h, Nat.lt_asymm h]

/-- Comparing two artifact names with the same base reduces to the
chronological comparison of their timestamps, with the strategy tail as the
tie break. -/
theorem goLess_artifactName (base s1 s2 : List Nat) (t1 t2 : Timestamp)
    (hv1 : t1.Valid) (hv2 : t2.Valid) :
    goLess (artifactName base t1 s1) (artifactName base t2 s2) =
      if chronLtB t1 t2 then true
      else if chronLtB t2 t1 then false
      else goLess (s1 ++ extBytes) (s2 ++ extBytes) := by
  unfold artifactName
  rw [goLess_append_left, goLess_sep, goLess_renderTs t1 t2 _ _ hv1 hv2]
  simp [goLess_sep]

/-! ### Manifest resolution returns a maximum -/

theorem foldl_goMax_spec (xs : List (List Nat)) :
    ∀ acc, (xs.foldl goMax acc = acc ∨ xs.foldl goMax acc ∈ xs) ∧
      goLess (xs.foldl goMax acc) acc = false ∧
      ∀ m ∈ xs, goLess (xs.foldl goMax acc) m = false := by
  induction xs with
  | nil => intro acc; exact ⟨Or.inl rfl, goLess_irrefl acc, by simp⟩
  | cons x xs ih =>
    intro acc
    simp only [List.foldl_cons]
    by_cases hax : goLess acc x = true
    · rw [goMax, if_pos hax]
      obtain ⟨hmem, hacc, hall⟩ := ih x
      refine ⟨?_, ?_, ?_⟩
      · rcases hmem with h | h
        · exact Or.inr (by simp [h])
        · exact Or.inr (List.mem_cons_of_mem _ h)
      · by_contra hc
        have hRacc : goLess (xs.foldl goMax x) acc = true := by simpa using hc
        have := goLess_trans hRacc hax
        simp [hacc] at this
      · intro m hm
        rcases List.mem_cons.mp hm with rfl | hm
        · exact hacc
        · exact hall m hm
    · have hax' : goLess acc x = false := by simpa using hax
      rw [goMax, if_neg (by simp [hax'])]
      obtain ⟨hmem, hacc, hall⟩ := ih acc
      refine ⟨?_, hacc, ?_⟩
      · rcases hmem with h | h
        · exact Or.inl h
        · exact Or.inr (List.mem_cons_of_mem _ h)
      · intro m hm
        rcases List.mem_cons.mp hm with rfl | hm
        · by_contra hc
          have hRm : goLess (xs.foldl goMax acc) m = true := by simpa using hc
          have := goLess_of_lt_of_not_lt hRm hax'
          simp [hacc] at this
        · exact hall m hm

/-- `findLatestBackup` returns a member that no listed name exceeds. -/
theorem findLatestBackup_spec (names : List (List Nat)) (r : List Nat)
    (h : findLatestBackup names = some r) :
    r ∈ names ∧ ∀ m ∈ names, goLess r m = false := by
  cases names with
  | nil => simp [findLatestBackup] at h
  | cons n ns =>
    simp only [findLatestBackup, Option.some.injEq] at h
    subst h
    obtain ⟨hmem, hacc, hall⟩ := foldl_goMax_spec ns n
    refine ⟨?_, ?_⟩
    · rcases hmem with h | h
      · rw [h]; exact List.mem_cons_self _ _
      · exact List.mem_cons_of_mem _ h
    · intro m hm
      rcases List.mem_cons.mp hm with rfl | hm
      · exact hacc
      · exact hall m hm

/-- C6 (amended): on an empty directory the resolution fails, and for every
non-empty set of validly-named artifacts that share one base name (one
deployment backs up one source database, so its directory holds one base),
the policy of sorting names descending and taking the first returns an
artifact whose embedded timestamp is chronologically maximal — for names
with a common base, lexicographic order coincides with chronological order
of the zero-padded UTC timestamps. -/
theorem findLatestBackup_latest (base : List Nat)
    (items : List (Timestamp × List Nat)) (hne : items ≠ [])
    (hv : ∀ p ∈ items, (Prod.fst p).Valid) :
    findLatestBackup ([] : List (List Nat)) = none ∧
    ∃ p ∈ items,
      findLatestBackup (items.map (fun q => artifactName base q.1 q.2)) =
        some (artifactName base p.1 p.2) ∧
      ∀ q ∈ items, chronLtB p.1 q.1 = false := by
  refine ⟨rfl, ?_⟩
  obtain ⟨r, hr⟩ : ∃ r,
      findLatestBackup (items.map (fun q => artifactName base q.1 q.2)) = some r := by
    cases items with
    | nil => exact absurd rfl hne
    | cons a l => exact ⟨_, rfl⟩
  obtain ⟨hmem, hall⟩ := findLatestBackup_spec _ r hr
  obtain ⟨p, hp, hpr⟩ := List.mem_map.mp hmem
  refine ⟨p, hp, by rw [hr, hpr], ?_⟩
  intro q hq
  have hq' : goLess r (artifactName base q.1 q.2) = false :=
    hall _ (List.mem_map_of_mem _ hq)
  rw [← hpr,
    goLess_artifactName base p.2 q.2 p.1 q.1 (hv p hp) (hv q hq)] at hq'
  by_contra hc
  have ht : chronLtB p.1 q.1 = true := by simpa using hc
  simp [ht] at hq'

/-- C6 counterexample: two validly-named artifacts with different base
names order by the base, not the timestamp, so the claim as stated fails:
the resolution returns the chronologically older artifact. -/
theorem findLatestBackup_counterexample :
    Timestamp.Valid ⟨2026, 1, 11, 0, 0, 0⟩ ∧
    Timestamp.Valid ⟨2020, 1, 11, 0, 0, 0⟩ ∧
    chronLtB ⟨2020, 1, 11, 0, 0, 0⟩ ⟨2026, 1, 11, 0, 0, 0⟩ = true ∧
    findLatestBackup
        [artifactName [97] ⟨2026, 1, 11, 0, 0, 0⟩ [111, 110, 108, 105, 110, 101],
          artifactName [98] ⟨2020, 1, 11, 0, 0, 0⟩ [111, 110, 108, 105, 110, 101]] =
      some (artifactName [98] ⟨2020, 1, 11, 0, 0, 0⟩ [111, 110, 108, 105, 110, 101]) :=
  ⟨by decide, by decide, by decide, by decide⟩

/-- Witness for the amended C6 theorem: two same-base artifacts; the
younger timestamp wins. -/
theorem findLatestBackup_latest_witness :
    findLatestBackup ([] : List (List Nat)) = none ∧
    ∃ p ∈ [((⟨2026, 1, 11, 0, 0, 0⟩ : Timestamp), [111, 110, 108, 105, 110, 101]),
            ((⟨2020, 1, 11, 0, 0, 0⟩ : Timestamp), [118, 97, 99, 117, 117, 109])],
      findLatestBackup
          ([((⟨2026, 1, 11, 0, 0, 0⟩ : Timestamp), [111, 110, 108, 105, 110, 101]),
            ((⟨2020, 1, 11, 0, 0, 0⟩ : Timestamp), [118, 97, 99, 117, 117, 109])].map
            (fun q => artifactName [97, 112, 112] q.1 q.2)) =
        some (artifactName [97, 112, 112] p.1 p.2) ∧
      ∀ q ∈ [((⟨2026, 1, 11, 0, 0, 0⟩ : Timestamp), [111, 110, 108, 105, 110, 101]),
              ((⟨2020, 1, 11, 0, 0, 0⟩ : Timestamp), [118, 97, 99, 117, 117, 109])],
        chronLtB p.1 q.1 = false :=
  findLatestBackup_latest [97, 112, 112] _ (by decide) (by decide)

/-! ### The progress logger -/

theorem loopLogGo_spec (S total interval : Nat) (hS : 0 < S) :
    ∀ fuel rem target copied acc, 0 < rem → rem ≤ fuel →
      ∃ ext, loopLogGo S total interval fuel rem target copied acc =
          some (acc ++ ext) ∧ ext ≠ [] ∧
        (∀ r ∈ ext, ∃ c, copied < c ∧ c ≤ copied + rem ∧ r = mlogRecord total c) ∧
        ext.getLast? = some (mlogRecord total (copied + rem)) := by
  intro fuel
  induction fuel with
  | zero => intro rem target copied acc h1 h2; omega
  | succ fuel ih =>
    intro rem target copied acc h1 h2
    simp only [loopLogGo]
    by_cases hle : rem ≤ S
    · have hmin : min S rem = rem := by omega
      simp only [hmin]
      rw [if_pos (Nat.sub_self rem)]
      refine ⟨[mlogRecord total (copied + rem)], rfl, by simp, ?_, by simp⟩
      intro r hr
      rw [List.mem_singleton] at hr
      subst hr
      exact ⟨copied + rem, by omega, le_refl _, rfl⟩
    · have hmin : min S rem = S := by omega
      simp only [hmin]
      rw [if_neg (by omega : ¬ (rem - S = 0))]
      by_cases htgt : target ≤ copied + S
      · rw [if_pos htgt]
        obtain ⟨ext, he, hextne, hall, hlast⟩ :=
          ih (rem - S) (target + interval) (copied + S)
            (acc ++ [mlogRecord total (copied + S)]) (by omega) (by omega)
        refine ⟨mlogRecord total (copied + S) :: ext, ?_, by simp, ?_, ?_⟩
        · rw [he]; simp
        · intro r hr
          rcases List.mem_cons.mp hr with rfl | hr
          · exact ⟨copied + S, by omega, by omega, rfl⟩
          · obtain ⟨c, hc1, hc2, hc3⟩ := hall r hr
            exact ⟨c, by omega, by omega, hc3⟩
        · cases ext with
          | nil => exact absurd rfl hextne
          | cons e es =>
            rw [List.getLast?_cons_cons]
            have harith : copied + S + (rem - S) = copied + rem := by omega
            rw [harith] at hlast
            exact hlast
      · rw [if_neg htgt]
        obtain ⟨ext, he, hextne, hall, hlast⟩ :=
          ih (rem - S) target (copied + S) acc (by omega) (by omega)
        refine ⟨ext, he, hextne, ?_, ?_⟩
        · intro r hr
          obtain ⟨c, hc1, hc2, hc3⟩ := hall r hr
          exact ⟨c, by omega, by omega, hc3⟩
        · have harith : copied + S + (rem - S) = copied + rem := by omega
          rw [harith] at hlast
          exact hlast

/-- C4 (amended): the online copy loop reports progress on a page-count
schedule, not wall-clock time: a record is emitted whenever the cumulative
pages copied reach the next multiple of a tenth of the total (at least one
page), and a final record is always emitted at loop exit; every record
carries the pages copied so far and the total page count — and nothing else,
in particular no percent field. -/
theorem onlineLogs_page_schedule (S P : Nat) (hS : 0 < S) (hP : 0 < P) :
    ∃ L, onlineLogs S P = some L ∧ L ≠ [] ∧
      (∀ r ∈ L, ∃ c, 0 < c ∧ c ≤ P ∧ r = mlogRecord P c) ∧
      L.getLast? = some (mlogRecord P P) := by
  obtain ⟨ext, he, hne, hall, hlast⟩ :=
    loopLogGo_spec S P (logPageInterval P) hS P P (logPageInterval P) 0 [] hP
      (le_refl P)
  refine ⟨ext, by simpa using he, hne, ?_, by simpa using hlast⟩
  intro r hr
  obtain ⟨c, hc1, hc2, hc3⟩ := hall r hr
  exact ⟨c, hc1, by simpa using hc2, hc3⟩

/-- Witness for the amended C4 theorem at `S = 2`, `P = 5`. -/
theorem onlineLogs_page_schedule_witness :
    ∃ L, onlineLogs 2 5 = some L ∧ L ≠ [] ∧
      (∀ r ∈ L, ∃ c, 0 < c ∧ c ≤ 5 ∧ r = mlogRecord 5 c) ∧
      L.getLast? = some (mlogRecord 5 5) :=
  onlineLogs_page_schedule 2 5 (by decide) (by decide)

/-- C4 counterexample: a concrete online loop whose emitted records carry
exactly the keys `pages_copied` and `total_pages` — no percent-complete
field exists, and no wall-clock pacing exists anywhere in the logger (the
configuration has no progress-log-interval field at all). -/
theorem onlineLogs_no_percent :
    onlineLogs 2 5 = some [mlogRecord 5 2, mlogRecord 5 4, mlogRecord 5 5] ∧
    ([mlogRecord 5 2, mlogRecord 5 4, mlogRecord 5 5].all
      (fun r => r.map Prod.fst == ["pages_copied", "total_pages"])) = true := by
  exact ⟨by decide, by decide⟩

/-! ### The backup run: structural facts -/

theorem afterStrategy_manifest (env : Env) (parts : NameParts) (r : StratResult) :
    ((afterStrategy env parts r).2).manifest = env.manifest0 := by
  unfold afterStrategy
  cases hr : r.res with
  | error e => rfl
  | ok u =>
    unfold compressStep
    split_ifs <;> rfl

theorem afterStrategy_name (env : Env) (parts : NameParts) (r : StratResult) :
    ((afterStrategy env parts r).2).name = parts := by
  unfold afterStrategy
  cases hr : r.res with
  | error e => rfl
  | ok u =>
    unfold compressStep
    split_ifs <;> rfl

theorem afterStrategy_temp (env : Env) (parts : NameParts) (r : StratResult) :
    ((afterStrategy env parts r).2).tempExists =
      (((afterStrategy env parts r).2).tempCreated &&
        !((afterStrategy env parts r).2).strategyOk) := by
  unfold afterStrategy
  cases hr : r.res with
  | error e => simp
  | ok u =>
    unfold compressStep
    split_ifs <;> simp

theorem handle_manifest (cfg : Config) (env : Env) :
    ((handle cfg env).2).manifest = env.manifest0 := by
  simp only [handle]
  split_ifs <;> first | rfl | apply afterStrategy_manifest

theorem handle_name (cfg : Config) (env : Env) :
    ((handle cfg env).2).name =
      ⟨baseNameNoExt cfg.sourcePath, env.now,
        if cfg.strategy = "" then StrategyOnline else cfg.strategy⟩ := by
  simp only [handle]
  split_ifs <;> first | rfl | apply afterStrategy_name

/-! ### Claims about the backup run -/

/-- C1 (code bug): `Handle` never writes the manifest pointer.  For every
configuration and environment the manifest file `latest.txt` is left exactly
as it was; a fully successful online run produces the compressed artifact
and still performs no manifest update, so the run never yields an artifact
together with an updated pointer naming it — contradicting the claim, the
README (the job "maintains a latest.txt manifest file"), and the client
policy that reads `latest.txt`. -/
theorem handle_never_updates_manifest :
    (∀ (cfg : Config) (env : Env), ((handle cfg env).2).manifest = env.manifest0) ∧
    (handle ⟨"/data/app.db", "/backups", "online", 100, 0⟩
        ⟨5, false, false, false, none, false, false, false, false, false, none,
          ⟨2025, 6, 1, 12, 0, 0⟩⟩).1 = .ok () ∧
    ((handle ⟨"/data/app.db", "/backups", "online", 100, 0⟩
        ⟨5, false, false, false, none, false, false, false, false, false, none,
          ⟨2025, 6, 1, 12, 0, 0⟩⟩).2).artifact =
      some (.fullFile (.gzipOf (.dbImage 5))) ∧
    ((handle ⟨"/data/app.db", "/backups", "online", 100, 0⟩
        ⟨5, false, false, false, none, false, false, false, false, false, none,
          ⟨2025, 6, 1, 12, 0, 0⟩⟩).2).manifest = none :=
  ⟨fun cfg env => handle_manifest cfg env, rfl, rfl, rfl⟩

/-- C2 (amended): the temporary scratch copy is removed exactly when the
strategy phase succeeded — the deferred `os.Remove` registered at line 96
runs no matter how compression ends — and is left behind whenever the
strategy phase failed after creating it. -/
theorem temp_removed_iff_strategy_succeeded (cfg : Config) (env : Env) :
    ((handle cfg env).2).tempExists =
      (((handle cfg env).2).tempCreated && !((handle cfg env).2).strategyOk) := by
  simp only [handle]
  split_ifs <;> first | rfl | apply afterStrategy_temp

/-- C2 counterexample: a mid-copy engine failure under the online strategy
ends the attempt with the created temp file still on disk, because the
deferred removal is registered only after the strategy error check. -/
theorem temp_left_on_strategy_failure :
    (handle ⟨"/data/app.db", "/backups", "online", 1, 0⟩
        ⟨5, false, false, false, some 0, false, false, false, false, false, none,
          ⟨2025, 6, 1, 12, 0, 0⟩⟩).1 =
      .error "backup creation failed: backup step failed" ∧
    ((handle ⟨"/data/app.db", "/backups", "online", 1, 0⟩
        ⟨5, false, false, false, some 0, false, false, false, false, false, none,
          ⟨2025, 6, 1, 12, 0, 0⟩⟩).2).tempCreated = true ∧
    ((handle ⟨"/data/app.db", "/backups", "online", 1, 0⟩
        ⟨5, false, false, false, some 0, false, false, false, false, false, none,
          ⟨2025, 6, 1, 12, 0, 0⟩⟩).2).tempExists = true :=
  ⟨rfl, rfl, rfl⟩

/-- C8: configuration errors fail fast before any I/O: an unrecognized,
non-empty strategy returns the configuration error with nothing created and
nothing opened, and under the online strategy a non-positive pages-per-step
or a negative sleep interval returns a configuration error before any file
is created or any database connection is opened. -/
theorem config_errors_fail_fast (cfg : Config) (env : Env) :
    (cfg.strategy ≠ StrategyVacuum → cfg.strategy ≠ StrategyOnline →
      cfg.strategy ≠ "" →
      (handle cfg env).1 = .error "unknown backup strategy" ∧
      ((handle cfg env).2).tempCreated = false ∧
      ((handle cfg env).2).artifact = none ∧
      ((handle cfg env).2).connsOpened = 0) ∧
    ((cfg.strategy = StrategyOnline ∨ cfg.strategy = "") →
      (cfg.pagesPerStep ≤ 0 ∨ cfg.sleepInterval < 0) →
      (∃ msg, (handle cfg env).1 = .error msg) ∧
      ((handle cfg env).2).tempCreated = false ∧
      ((handle cfg env).2).artifact = none ∧
      ((handle cfg env).2).connsOpened = 0) := by
  constructor
  · intro h1 h2 h3
    simp only [handle]
    rw [if_neg h1, if_neg (by tauto : ¬ (cfg.strategy = StrategyOnline ∨ cfg.strategy = ""))]
    exact ⟨rfl, rfl, rfl, rfl⟩
  · intro hs hbad
    have hvac : ¬ cfg.strategy = StrategyVacuum := by
      rcases hs with h | h <;> rw [h] <;> decide
    have hvv : ∃ msg, validateOnlineConfig cfg = .error msg := by
      unfold validateOnlineConfig
      by_cases hp : cfg.pagesPerStep ≤ 0
      · exact ⟨_, by rw [if_pos hp]⟩
      · have hsl : cfg.sleepInterval < 0 := by
          rcases hbad with h | h
          · omega
          · exact h
        exact ⟨_, by rw [if_neg hp, if_pos hsl]⟩
    obtain ⟨msg, hmsg⟩ := hvv
    have hob : onlineBackupM cfg env = ⟨.error msg, false, 0, 0, 0⟩ := by
      unfold onlineBackupM
      rw [hmsg]
    simp only [handle]
    rw [if_neg hvac, if_pos hs, hob]
    unfold afterStrategy
    exact ⟨⟨_, rfl⟩, rfl, rfl, rfl⟩

/-- Witness for C8: an unknown strategy and a zero pages-per-step online
configuration, each rejected with nothing created. -/
theorem config_errors_fail_fast_witness :
    ((handle ⟨"/d.db", "/b", "snapshot", 100, 0⟩
        ⟨7, false, false, false, none, false, false, false, false, false, none,
          ⟨2025, 6, 1, 12, 0, 0⟩⟩).1 = .error "unknown backup strategy" ∧
      ((handle ⟨"/d.db", "/b", "snapshot", 100, 0⟩
        ⟨7, false, false, false, none, false, false, false, false, false, none,
          ⟨2025, 6, 1, 12, 0, 0⟩⟩).2).tempCreated = false ∧
      ((handle ⟨"/d.db", "/b", "snapshot", 100, 0⟩
        ⟨7, false, false, false, none, false, false, false, false, false, none,
          ⟨2025, 6, 1, 12, 0, 0⟩⟩).2).artifact = none ∧
      ((handle ⟨"/d.db", "/b", "snapshot", 100, 0⟩
        ⟨7, false, false, false, none, false, false, false, false, false, none,
          ⟨2025, 6, 1, 12, 0, 0⟩⟩).2).connsOpened = 0) ∧
    ((∃ msg, (handle ⟨"/d.db", "/b", "online", 0, 0⟩
        ⟨7, false, false, false, none, false, false, false, false, false, none,
          ⟨2025, 6, 1, 12, 0, 0⟩⟩).1 = .error msg) ∧
      ((handle ⟨"/d.db", "/b", "online", 0, 0⟩
        ⟨7, false, false, false, none, false, false, false, false, false, none,
          ⟨2025, 6, 1, 12, 0, 0⟩⟩).2).tempCreated = false ∧
      ((handle ⟨"/d.db", "/b", "online", 0, 0⟩
        ⟨7, false, false, false, none, false, false, false, false, false, none,
          ⟨2025, 6, 1, 12, 0, 0⟩⟩).2).artifact = none ∧
      ((handle ⟨"/d.db", "/b", "online", 0, 0⟩
        ⟨7, false, false, false, none, false, false, false, false, false, none,
          ⟨2025, 6, 1, 12, 0, 0⟩⟩).2).connsOpened = 0) :=
  ⟨(config_errors_fail_fast _ _).1 (by decide) (by decide) (by decide),
    (config_errors_fail_fast _ _).2 (Or.inl rfl) (Or.inl (by decide))⟩

/-- C9: a zero-page source under the online strategy succeeds immediately
with zero copy-loop iterations, and the run still produces the compressed
artifact of the empty database image, which the verification engine
accepts. -/
theorem empty_source_immediate_success (cfg : Config) (env : Env)
    (hs : cfg.strategy = StrategyOnline ∨ cfg.strategy = "")
    (hpps : 0 < cfg.pagesPerStep) (hsleep : 0 ≤ cfg.sleepInterval)
    (h0 : env.sourcePages = 0)
    (e1 : env.openSourceFails = false) (e2 : env.createDestFails = false)
    (e3 : env.initStepFails = false) (e4 : env.compressOpenFails = false)
    (e5 : env.compressCreateFails = false) (e6 : env.compressCopyFails = false) :
    (handle cfg env).1 = .ok () ∧
    ((handle cfg env).2).loopIterations = 0 ∧
    ((handle cfg env).2).artifact = some (.fullFile (.gzipOf (.dbImage 0))) ∧
    verifyContent (.gzipOf (.dbImage 0)) = .ok () := by
  have hvac : ¬ cfg.strategy = StrategyVacuum := by
    rcases hs with h | h <;> rw [h] <;> decide
  have hval : validateOnlineConfig cfg = .ok () := by
    unfold validateOnlineConfig
    rw [if_neg (by omega), if_neg (by omega)]
  have hob : onlineBackupM cfg env = ⟨.ok (), true, 0, 2, 0⟩ := by
    unfold onlineBackupM
    rw [hval]
    simp [e1, e2, e3, h0]
  simp only [handle]
  rw [if_neg hvac, if_pos hs, hob]
  simp only [afterStrategy, compressStep]
  rw [e4, e5, e6]
  simp [verifyContent]

/-- Witness for C9: the concrete zero-page online run. -/
theorem empty_source_immediate_success_witness :
    (handle ⟨"/data/app.db", "/backups", "online", 100, 0⟩
        ⟨0, false, false, false, none, false, false, false, false, false, none,
          ⟨2025, 6, 1, 12, 0, 0⟩⟩).1 = .ok () ∧
    ((handle ⟨"/data/app.db", "/backups", "online", 100, 0⟩
        ⟨0, false, false, false, none, false, false, false, false, false, none,
          ⟨2025, 6, 1, 12, 0, 0⟩⟩).2).loopIterations = 0 ∧
    ((handle ⟨"/data/app.db", "/backups", "online", 100, 0⟩
        ⟨0, false, false, false, none, false, false, false, false, false, none,
          ⟨2025, 6, 1, 12, 0, 0⟩⟩).2).artifact =
      some (.fullFile (.gzipOf (.dbImage 0))) ∧
    verifyContent (.gzipOf (.dbImage 0)) = .ok () :=
  empty_source_immediate_success _ _ (Or.inl rfl) (by decide) (by decide)
    rfl rfl rfl rfl rfl rfl rfl

/-- C10: a configuration whose strategy field is the empty string runs
exactly as the online strategy — the whole observable run outcome equals
that of the same configuration with strategy `online`, and the artifact
name embeds the strategy tag `online`. -/
theorem empty_strategy_behaves_online (cfg : Config) (env : Env)
    (h : cfg.strategy = "") :
    handle cfg env = handle { cfg with strategy := StrategyOnline } env ∧
    ((handle cfg env).2).name.strat = StrategyOnline := by
  obtain ⟨sp, bd, st, pps, si⟩ := cfg
  have h' : st = "" := h
  subst h'
  refine ⟨rfl, ?_⟩
  rw [handle_name]
  rfl

/-- Witness for C10: a concrete empty-strategy configuration. -/
theorem empty_strategy_behaves_online_witness :
    handle ⟨"/data/app.db", "/backups", "", 100, 0⟩
        ⟨3, false, false, false, none, false, false, false, false, false, none,
          ⟨2025, 6, 1, 12, 0, 0⟩⟩ =
      handle ⟨"/data/app.db", "/backups", StrategyOnline, 100, 0⟩
        ⟨3, false, false, false, none, false, false, false, false, false, none,
          ⟨2025, 6, 1, 12, 0, 0⟩⟩ ∧
    ((handle ⟨"/data/app.db", "/backups", "", 100, 0⟩
        ⟨3, false, false, false, none, false, false, false, false, false, none,
          ⟨2025, 6, 1, 12, 0, 0⟩⟩).2).name.strat = StrategyOnline :=
  empty_strategy_behaves_online _ _ rfl

end SqliteBackup
